import Mathlib

/-!
# Verification of the `router` edge service core

A shallow embedding, in Lean 4, of the data-plane and security-state core of
the `router` reverse proxy:

* the IP reputation engine (`internal/storage/ip_reputation.go`),
* the routing-rule store (`internal/storage/rules.go`),
* the request dispatcher (`internal/proxy/proxy.go`, `Proxy.ServeHTTP`),
* the log fan-out bus (`internal/logstream/logstream.go`),
* the operator endpoint for removing a suspicious IP
  (`internal/panel/handlers.go`, `Handler.RemoveSuspiciousIP`),
* the client-IP resolver exercised by `TestClientIPSelection`.

Go `time.Time` values are modelled as `Nat` nanoseconds, with `0` playing the
role of the zero `time.Time` (`IsZero` becomes `= 0`, `After` becomes `>`,
`Add` becomes `+`).  `now.Sub(t) > d` on signed Go durations is modelled with
truncated `Nat` subtraction: when `now < t` both the Go comparison (negative
duration) and the Lean comparison (`0 > d`) are false, so the branches agree.
Maps are modelled as association lists with Go map semantics (`aLookup`,
`aSet`, `aErase`).  File persistence is modelled by a `saveCount` field that
each `saveLocked` call increments.
-/

namespace Router

/-- Association-list read, modelling a Go map read `m[k]`. -/
def aLookup {α : Type} (k : String) : List (String × α) → Option α
  | [] => none
  | (k₂, v) :: rest => if k = k₂ then some v else aLookup k rest

/-- Association-list write, modelling a Go map assignment `m[k] = v`:
replaces the binding when the key is present, appends otherwise. -/
def aSet {α : Type} (k : String) (v : α) : List (String × α) → List (String × α)
  | [] => [(k, v)]
  | (k₂, w) :: rest => if k = k₂ then (k₂, v) :: rest else (k₂, w) :: aSet k v rest

/-- Association-list delete, modelling Go `delete(m, k)`. -/
def aErase {α : Type} (k : String) : List (String × α) → List (String × α)
  | [] => []
  | (k₂, w) :: rest => if k = k₂ then rest else (k₂, w) :: aErase k rest

/-- Number of bindings for key `k` (a well-formed map state has at most one). -/
def keyCount {α : Type} (k : String) (l : List (String × α)) : Nat :=
  l.countP (fun p => p.1 = k)

/-! ## IP reputation engine (`internal/storage/ip_reputation.go`) -/

/-- `autoBanWindow = 2 * time.Minute`, in nanoseconds. -/
def autoBanWindow : Nat := 120000000000

/-- `autoBanHits = 10`. -/
def autoBanHits : Nat := 10

/-- `autoBanDuration = 24 * time.Hour`, in nanoseconds. -/
def autoBanDuration : Nat := 86400000000000

/-- The `SuspiciousIP` record of `ip_reputation.go`. -/
structure SuspiciousIP where
  ip : String
  reason : String
  count : Nat
  firstSeen : Nat
  lastSeen : Nat
  banned : Bool
  bannedAt : Nat
  banUntil : Nat
  autoBanned : Bool
  windowStart : Nat
  windowCount : Nat
deriving Repr, DecidableEq

/-- The `IPReputationStore`: its entry map plus the number of completed
`saveLocked` persistence writes. -/
structure IPRepStore where
  entries : List (String × SuspiciousIP)
  saveCount : Nat
deriving Repr, DecidableEq

/-- `IPReputationStore.MarkSuspicious(ip, reason)`; `now` is the value the Go
code reads from `s.nowFn()`.  Returns the Go pair `(justAutoBanned, banUntil)`
together with the updated store. -/
def markSuspicious (s : IPRepStore) (ip reason : String) (now : Nat) :
    (Bool × Nat) × IPRepStore :=
  if ip = "" then ((false, 0), s)
  else
    match aLookup ip s.entries with
    | none =>
        let e : SuspiciousIP :=
          { ip := ip, reason := reason, count := 1, firstSeen := now,
            lastSeen := now, banned := false, bannedAt := 0, banUntil := 0,
            autoBanned := false, windowStart := now, windowCount := 1 }
        ((false, 0), ⟨aSet ip e s.entries, s.saveCount + 1⟩)
    | some e0 =>
        let e1 := { e0 with
          count := e0.count + 1,
          lastSeen := now,
          reason := if reason ≠ "" then reason else e0.reason }
        let e2 :=
          if e1.windowStart = 0 ∨ now - e1.windowStart > autoBanWindow then
            { e1 with windowStart := now, windowCount := 1 }
          else
            { e1 with windowCount := e1.windowCount + 1 }
        if e2.banned = false ∧ autoBanHits ≤ e2.windowCount then
          let e3 := { e2 with
            banned := true
            autoBanned := true
            bannedAt := now
            banUntil := now + autoBanDuration }
          ((true, e3.banUntil), ⟨aSet ip e3 s.entries, s.saveCount + 1⟩)
        else
          ((false, 0), ⟨aSet ip e2 s.entries, s.saveCount + 1⟩)

/-- `IPReputationStore.Ban(ip)`; `now` is the value read from `s.nowFn()`. -/
def ban (s : IPRepStore) (ip : String) (now : Nat) : Bool × IPRepStore :=
  if ip = "" then (false, s)
  else
    match aLookup ip s.entries with
    | none =>
        let e : SuspiciousIP :=
          { ip := ip, reason := "manual ban", count := 1, firstSeen := now,
            lastSeen := now, banned := true, bannedAt := now, banUntil := 0,
            autoBanned := false, windowStart := 0, windowCount := 0 }
        (true, ⟨aSet ip e s.entries, s.saveCount + 1⟩)
    | some e =>
        if e.banned then (false, s)
        else
          let e₂ := { e with
            banned := true
            autoBanned := false
            banUntil := 0
            bannedAt := now }
          (true, ⟨aSet ip e₂ s.entries, s.saveCount + 1⟩)

/-- `IPReputationStore.Unban(ip)` (the Go code never reads the clock here). -/
def unban (s : IPRepStore) (ip : String) : Bool × IPRepStore :=
  if ip = "" then (false, s)
  else
    match aLookup ip s.entries with
    | none => (false, s)
    | some e =>
        if e.banned = false then (false, s)
        else
          let e₂ := { e with
            banned := false
            autoBanned := false
            bannedAt := 0
            banUntil := 0 }
          (true, ⟨aSet ip e₂ s.entries, s.saveCount + 1⟩)

/-- `IPReputationStore.Remove(ip)`. -/
def remove (s : IPRepStore) (ip : String) : Bool × IPRepStore :=
  if ip = "" then (false, s)
  else
    match aLookup ip s.entries with
    | none => (false, s)
    | some _ => (true, ⟨aErase ip s.entries, s.saveCount + 1⟩)

/-- `IPReputationStore.IsBanned(ip)`; `now` is the value read from
`s.nowFn()` inside the expiry test.  Returns the reported flag together with
the (possibly lazily-expired) store. -/
def isBanned (s : IPRepStore) (ip : String) (now : Nat) : Bool × IPRepStore :=
  match aLookup ip s.entries with
  | none => (false, s)
  | some e =>
      if e.banned = true ∧ e.banUntil ≠ 0 ∧ now > e.banUntil then
        let e₂ := { e with
          banned := false
          autoBanned := false
          bannedAt := 0
          banUntil := 0 }
        (false, ⟨aSet ip e₂ s.entries, s.saveCount + 1⟩)
      else (e.banned, s)

/-- The per-record invariant of the reputation data model: an unbanned
record carries zero ban metadata, and the window counter never exceeds the
total counter. -/
def entryInv (e : SuspiciousIP) : Prop :=
  (e.banned = false → e.bannedAt = 0 ∧ e.banUntil = 0 ∧ e.autoBanned = false) ∧
  e.windowCount ≤ e.count

instance (e : SuspiciousIP) : Decidable (entryInv e) := by
  unfold entryInv
  infer_instance

/-- Every record of the store satisfies `entryInv`. -/
def storeInv (s : IPRepStore) : Prop :=
  ∀ p ∈ s.entries, entryInv p.2

instance (s : IPRepStore) : Decidable (storeInv s) := by
  unfold storeInv
  infer_instance

/-- `count` does not decrease for any record present in both entry maps. -/
def countMono (l l₂ : List (String × SuspiciousIP)) : Prop :=
  ∀ k e e₂, aLookup k l = some e → aLookup k l₂ = some e₂ → e.count ≤ e₂.count

/-! ## Routing-rule store (`internal/storage/rules.go`) -/

/-- The `Rule` struct of `rules.go`: `Target`, transient `LastAccess` and
`ServiceDown` (never persisted). -/
structure GoRule where
  target : String
  lastAccess : Nat
  serviceDown : Bool
deriving Repr, DecidableEq

/-- The `RuleStore` of `rules.go` with its persistence counter. -/
structure RuleStore where
  rules : List (String × GoRule)
  saveCount : Nat
deriving Repr, DecidableEq

/-- `RuleStore.Add(host, target)`: `s.rules[host] = &Rule{Target: target}`
followed by `s.storage.Save(s.rules)`.  The fresh literal zeroes the
transient fields. -/
def addRule (s : RuleStore) (host target : String) : RuleStore :=
  ⟨aSet host ⟨target, 0, false⟩ s.rules, s.saveCount + 1⟩

/-! ## Log fan-out bus (`internal/logstream/logstream.go`) -/

/-- One subscriber channel: its buffer capacity and currently queued
records.  A record is a byte list. -/
structure Subscriber where
  capacity : Nat
  queue : List (List Nat)
deriving Repr, DecidableEq

/-- The `Broadcaster`: the registered listener set (as a list snapshot). -/
structure Broadcaster where
  listeners : List Subscriber
deriving Repr, DecidableEq

/-- One non-blocking channel send `select { case ch <- msg: default: }`:
the copied record is enqueued when the buffer has room, otherwise dropped
for that subscriber alone. -/
def deliver (p : List Nat) (s : Subscriber) : Subscriber :=
  if s.queue.length < s.capacity then { s with queue := s.queue ++ [p] } else s

/-- `Broadcaster.Write(p)`: attempts a non-blocking deliver of a copy of `p`
to every listener and returns `(len(p), nil)`; the error is modelled as
`Option String` with `none` for Go `nil`. -/
def write (b : Broadcaster) (p : List Nat) : (Nat × Option String) × Broadcaster :=
  ((p.length, none), ⟨b.listeners.map (deliver p)⟩)

/-! ## Request dispatcher (`internal/proxy/proxy.go`) -/

/-- The rule shape the dispatcher consumes: target plus per-rule
maintenance flag. -/
structure PRule where
  target : String
  maintenance : Bool
deriving Repr, DecidableEq

/-- The rule-store view the dispatcher reads: the global `MaintenanceMode`
flag and the host→rule map. -/
structure PRuleStore where
  maintenanceMode : Bool
  rules : List (String × PRule)
deriving Repr, DecidableEq

/-- Modelled from the spec: `RuleStore.GetRule` is called by
`Proxy.ServeHTTP` but its definition is absent from the sources; per §4.2 it
returns a copy of the rule stored for the host together with a found flag. -/
def getRule (rs : PRuleStore) (host : String) : Option PRule :=
  aLookup host rs.rules

/-- An incoming request as the dispatcher reads it. -/
structure Request where
  host : String
  path : String
  method : String
  remoteAddr : String
deriving Repr, DecidableEq

/-- The response classes `Proxy.ServeHTTP` can produce. -/
inductive Response where
  | forbidden
  | maintenancePage
  | staticFile
  | methodNotAllowed
  | notFound
  | internalError
  | forwarded (target : String)
deriving Repr, DecidableEq

/-- Occurrences of `c` in a character list. -/
def countChar (c : Char) : List Char → Nat
  | [] => 0
  | d :: rest => (if d = c then 1 else 0) + countChar c rest

/-- Characters strictly before the first occurrence of `c`. -/
def takeUntilChar (c : Char) : List Char → List Char
  | [] => []
  | d :: rest => if d = c then [] else d :: takeUntilChar c rest

/-- `net.SplitHostPort` restricted to the non-bracketed `host:port` forms the
repository handles: succeeds exactly when the address has a single colon and
no brackets, yielding the host part. -/
def splitHostPortL (l : List Char) : Option (List Char) :=
  if countChar ':' l = 1 ∧ '[' ∉ l then some (takeUntilChar ':' l) else none

/-- The `clientIP(remoteAddr string)` helper of `proxy.go`: the host part of
`RemoteAddr`, or the whole string when `SplitHostPort` fails. -/
def clientIP (remoteAddr : String) : String :=
  match splitHostPortL remoteAddr.data with
  | some h => String.mk h
  | none => remoteAddr

/-- Is `needle` a prefix of `hay`? -/
def listHasPre {α : Type} [DecidableEq α] : List α → List α → Bool
  | [], _ => true
  | _ :: _, [] => false
  | a :: as, b :: bs => a = b && listHasPre as bs

/-- Does `needle` occur as a contiguous sublist of `hay`?  Models
`strings.Contains`. -/
def listHasSub {α : Type} [DecidableEq α] (needle : List α) : List α → Bool
  | [] => needle.isEmpty
  | a :: rest => listHasPre needle (a :: rest) || listHasSub needle rest

/-- The probe token list of `suspiciousPath`. -/
def probeTokens : List String :=
  [".env", "wp-admin", "wp-login", "phpmyadmin", "adminer", "/etc/passwd", "/.git"]

/-- `suspiciousPath(path)`: the lowercased path contains one of the probe
tokens. -/
def suspiciousPath (path : String) : Bool :=
  probeTokens.any (fun p => listHasSub p.data (path.data.map Char.toLower))

/-- `Proxy.ServeHTTP` (the reputation-aware variant at
`proxy.go:179-242`), as a pure function.  `rep` is the (possibly `nil`)
reputation store, `now` the clock value, and `parseOk` abstracts whether
`url.Parse("http://" + target)` succeeds.  Returns the response class, the
updated reputation store, and the trace of `MarkSuspicious(ip, reason)`
calls made.  Telemetry (`stats.AddRequest`) and log lines are outside the
model. -/
def serveHTTP (rs : PRuleStore) (rep : Option IPRepStore) (req : Request)
    (now : Nat) (parseOk : String → Bool) :
    Response × Option IPRepStore × List (String × String) :=
  let remoteIP := clientIP req.remoteAddr
  let banStep : Bool × Option IPRepStore :=
    match rep with
    | some st =>
        let r := isBanned st remoteIP now
        (r.1, some r.2)
    | none => (false, none)
  if banStep.1 then (Response.forbidden, banStep.2, [])
  else
    let rep₁ := banStep.2
    if rs.maintenanceMode then
      ((if req.path = "/static/styles.css" then
          if req.method = "GET" ∨ req.method = "HEAD" then Response.staticFile
          else Response.methodNotAllowed
        else Response.maintenancePage), rep₁, [])
    else
      match getRule rs req.host with
      | none =>
          match rep₁ with
          | some st =>
              (Response.notFound,
               some (markSuspicious st remoteIP "unknown host" now).2,
               [(remoteIP, "unknown host")])
          | none => (Response.notFound, none, [])
      | some rule =>
          let probeStep : Option IPRepStore × List (String × String) :=
            match rep₁ with
            | some st =>
                if suspiciousPath req.path then
                  (some (markSuspicious st remoteIP "suspicious path probe" now).2,
                   [(remoteIP, "suspicious path probe")])
                else (some st, [])
            | none => (none, [])
          if rule.maintenance then
            ((if req.path = "/static/styles.css" then
              if req.method = "GET" ∨ req.method = "HEAD" then Response.staticFile
              else Response.methodNotAllowed
            else Response.maintenancePage), probeStep.1, probeStep.2)
          else if parseOk ("http://" ++ rule.target) then
            (Response.forwarded rule.target, probeStep.1, probeStep.2)
          else
            (Response.internalError, probeStep.1, probeStep.2)

/-! ## Operator endpoint `Handler.RemoveSuspiciousIP`
(`internal/panel/handlers.go`) -/

/-- The decision core of `Handler.RemoveSuspiciousIP`, after BasicAuth and
the POST-method check: the HTTP status written and the resulting store.
`400` for a missing `ip` form value, `503` for a `nil` store, `400` when
`IsBanned(ip)` holds, otherwise `Remove(ip)` and `204`. -/
def removeSuspiciousIPHandler (ipStore : Option IPRepStore) (ip : String)
    (now : Nat) : Nat × Option IPRepStore :=
  if ip = "" then (400, ipStore)
  else
    match ipStore with
    | none => (503, none)
    | some st =>
        let r := isBanned st ip now
        if r.1 then (400, some r.2)
        else (204, some (remove r.2 ip).2)

/-! ## Client-IP resolver (§4.4; exercised by `TestClientIPSelection`) -/

/-- A parsed IPv4 address. -/
structure IPv4 where
  a : Nat
  b : Nat
  c : Nat
  d : Nat
deriving Repr, DecidableEq

/-- Go `strings.TrimSpace` whitespace set, restricted to ASCII. -/
def isSpaceChar (c : Char) : Bool :=
  c = ' ' || c = '\t' || c = '\n' || c = '\r'

/-- Trim ASCII whitespace from both ends. -/
def trimChars (l : List Char) : List Char :=
  ((l.dropWhile isSpaceChar).reverse.dropWhile isSpaceChar).reverse

/-- `strings.TrimSpace` on a string. -/
def trimStr (s : String) : String :=
  String.mk (trimChars s.data)

/-- Split a character list at every occurrence of `sep`. -/
def splitOnChar (sep : Char) : List Char → List (List Char)
  | [] => [[]]
  | c :: rest =>
      let r := splitOnChar sep rest
      if c = sep then [] :: r
      else
        match r with
        | [] => [[c]]
        | g :: gs => (c :: g) :: gs

/-- One dotted-decimal octet, as `net.ParseIP` accepts it: 1–3 digits, no
leading zero, value at most 255. -/
def parseOctet (cs : List Char) : Option Nat :=
  if cs.length = 0 ∨ 3 < cs.length then none
  else if ¬ cs.all Char.isDigit then none
  else if 1 < cs.length ∧ cs.head? = some '0' then none
  else
    let n := cs.foldl (fun n c => n * 10 + (c.toNat - 48)) 0
    if n ≤ 255 then some n else none

/-- `net.ParseIP` on the dotted-quad IPv4 forms the repository's tests
exercise. -/
def parseIPv4L (cs : List Char) : Option IPv4 :=
  match splitOnChar '.' cs with
  | [p, q, r, t] =>
      match parseOctet p, parseOctet q, parseOctet r, parseOctet t with
      | some a, some b, some c, some d => some ⟨a, b, c, d⟩
      | _, _, _, _ => none
  | _ => none

/-- `net.ParseIP` on a string. -/
def parseIPv4 (s : String) : Option IPv4 :=
  parseIPv4L s.data

/-- Loopback range `127.0.0.0/8`. -/
def isLoopbackIP (ip : IPv4) : Bool :=
  decide (ip.a = 127)

/-- RFC-1918 private ranges. -/
def isPrivateIP (ip : IPv4) : Bool :=
  decide (ip.a = 10 ∨ (ip.a = 172 ∧ 16 ≤ ip.b ∧ ip.b ≤ 31) ∨ (ip.a = 192 ∧ ip.b = 168))

/-- Link-local unicast `169.254.0.0/16`. -/
def isLinkLocalIP (ip : IPv4) : Bool :=
  decide (ip.a = 169 ∧ ip.b = 254)

/-- Multicast `224.0.0.0/4` (contains link-local multicast `224.0.0.0/24`). -/
def isMulticastIP (ip : IPv4) : Bool :=
  decide (224 ≤ ip.a ∧ ip.a ≤ 239)

/-- The unspecified address `0.0.0.0`. -/
def isUnspecifiedIP (ip : IPv4) : Bool :=
  decide (ip.a = 0 ∧ ip.b = 0 ∧ ip.c = 0 ∧ ip.d = 0)

/-- "Public" per §4.4: excludes loopback, private, link-local, multicast and
the unspecified address. -/
def isPublicIP (ip : IPv4) : Bool :=
  !(isLoopbackIP ip || isPrivateIP ip || isLinkLocalIP ip ||
    isMulticastIP ip || isUnspecifiedIP ip)

/-- The forwarding headers and transport peer a request carries. -/
structure HeaderSet where
  cfConnectingIP : String
  xForwardedFor : String
  xRealIP : String
  remoteAddr : String
deriving Repr, DecidableEq

/-- The host part of the transport peer address. -/
def socketHost (h : HeaderSet) : String :=
  clientIP h.remoteAddr

/-- Does the socket peer parse as a public IP? -/
def socketIsPublic (h : HeaderSet) : Bool :=
  match parseIPv4 (socketHost h) with
  | some ip => isPublicIP ip
  | none => false

/-- The trimmed comma-separated entries of an `X-Forwarded-For` value. -/
def xffTokens (xff : String) : List String :=
  (splitOnChar ',' xff.data).map (fun g => String.mk (trimChars g))

/-- First `X-Forwarded-For` entry that parses to a public IP. -/
def firstPublicXFF (xff : String) : Option String :=
  (xffTokens xff).find? (fun t =>
    match parseIPv4 t with
    | some ip => isPublicIP ip
    | none => false)

/-- First `X-Forwarded-For` entry that parses at all. -/
def firstParseXFF (xff : String) : Option String :=
  (xffTokens xff).find? (fun t => (parseIPv4 t).isSome)

/-- Step-1 acceptance test of §4.4: the trimmed `CF-Connecting-IP` parses,
and it is public or the socket peer is itself non-public. -/
def cfAccepted (h : HeaderSet) : Bool :=
  match parseIPv4 (trimStr h.cfConnectingIP) with
  | some ip => isPublicIP ip || !socketIsPublic h
  | none => false

/-- Step-3 acceptance test of §4.4: the trimmed `X-Real-IP` parses, and it
is public or the socket peer is itself non-public. -/
def xrAccepted (h : HeaderSet) : Bool :=
  match parseIPv4 (trimStr h.xRealIP) with
  | some ip => isPublicIP ip || !socketIsPublic h
  | none => false

/-- Modelled from the spec: the request-based `clientIP` resolver of the
proxy package is absent from the sources — only its test
(`TestClientIPSelection`) is present.  Per §4.4 the ordered policy is:
a parseable `CF-Connecting-IP` wins when it is public or the socket peer is
non-public; else the first public `X-Forwarded-For` entry; else `X-Real-IP`
under the same public-or-socket-non-public rule; else the socket peer when
public; else the first parseable `X-Forwarded-For` entry, then `X-Real-IP`,
then the socket peer as-is. -/
def clientIPResolve (h : HeaderSet) : String :=
  if cfAccepted h then trimStr h.cfConnectingIP
  else
    match firstPublicXFF h.xForwardedFor with
    | some out => out
    | none =>
      if xrAccepted h then trimStr h.xRealIP
      else if socketIsPublic h then socketHost h
      else
        match firstParseXFF h.xForwardedFor with
        | some out => out
        | none =>
          if (parseIPv4 (trimStr h.xRealIP)).isSome then trimStr h.xRealIP
          else socketHost h

/-! ## Association-list lemmas -/

theorem aLookup_aSet_self {α : Type} (k : String) (v : α) (l : List (String × α)) :
    aLookup k (aSet k v l) = some v := by
  induction l with
  | nil => simp [aSet, aLookup]
  | cons p rest ih =>
      obtain ⟨k₂, w⟩ := p
      by_cases hk : k = k₂
      · simp [aSet, aLookup, hk]
      · simp [aSet, aLookup, hk, ih]

theorem aLookup_aSet_ne {α : Type} {k k₂ : String} (v : α) (l : List (String × α))
    (h : k₂ ≠ k) : aLookup k₂ (aSet k v l) = aLookup k₂ l := by
  induction l with
  | nil => simp [aSet, aLookup, h]
  | cons p rest ih =>
      obtain ⟨k₃, w⟩ := p
      by_cases hk : k = k₃
      · subst hk
        simp [aSet, aLookup, h]
      · by_cases hk₂ : k₂ = k₃ <;> simp [aSet, aLookup, hk, hk₂, ih]

theorem mem_aSet {α : Type} {k : String} {v : α} {l : List (String × α)}
    {p : String × α} (hm : p ∈ aSet k v l) : p.2 = v ∨ p ∈ l := by
  induction l with
  | nil =>
      simp [aSet] at hm
      subst hm
      exact Or.inl rfl
  | cons q rest ih =>
      obtain ⟨k₂, w⟩ := q
      by_cases hk : k = k₂
      · simp [aSet, hk] at hm
        rcases hm with hm | hm
        · exact Or.inl (by simp [hm])
        · exact Or.inr (List.mem_cons_of_mem _ hm)
      · simp [aSet, hk] at hm
        rcases hm with hm | hm
        · exact Or.inr (by simp [hm])
        · rcases ih hm with h₂ | h₂
          · exact Or.inl h₂
          · exact Or.inr (List.mem_cons_of_mem _ h₂)

theorem mem_aErase {α : Type} {k : String} {l : List (String × α)}
    {p : String × α} (hm : p ∈ aErase k l) : p ∈ l := by
  induction l with
  | nil => simp [aErase] at hm
  | cons q rest ih =>
      obtain ⟨k₂, w⟩ := q
      by_cases hk : k = k₂
      · simp [aErase, hk] at hm
        exact List.mem_cons_of_mem _ hm
      · simp [aErase, hk] at hm
        rcases hm with hm | hm
        · exact by simp [hm]
        · exact List.mem_cons_of_mem _ (ih hm)

theorem aLookup_mem {α : Type} {k : String} {v : α} {l : List (String × α)}
    (h : aLookup k l = some v) : (k, v) ∈ l := by
  induction l with
  | nil => simp [aLookup] at h
  | cons q rest ih =>
      obtain ⟨k₂, w⟩ := q
      by_cases hk : k = k₂
      · subst hk
        simp [aLookup] at h
        simp [h]
      · simp [aLookup, hk] at h
        exact List.mem_cons_of_mem _ (ih h)

theorem keyCount_aSet {α : Type} (k : String) (v : α) (l : List (String × α)) :
    keyCount k (aSet k v l) = max (keyCount k l) 1 := by
  induction l with
  | nil => simp [keyCount, aSet]
  | cons q rest ih =>
      obtain ⟨k₂, w⟩ := q
      by_cases hk : k = k₂
      · subst hk
        simp [keyCount, aSet, List.countP_cons]
      · have hk₂ : ¬ k₂ = k := fun h₂ => hk h₂.symm
        simp [keyCount, aSet, hk, List.countP_cons, hk₂] at ih ⊢
        exact ih

/-! ## Claim theorems -/

/-- C9: for the empty-string IP every reputation mutator is a rejecting
no-op: `MarkSuspicious` returns `(false, zero time)`, `Ban`, `Unban` and
`Remove` return `false`, and none of them touches the entry map or writes
the persistence file. -/
theorem emptyIP_mutators_noop (s : IPRepStore) (reason : String) (now : Nat) :
    markSuspicious s "" reason now = ((false, 0), s) ∧
    ban s "" now = (false, s) ∧
    unban s "" = (false, s) ∧
    remove s "" = (false, s) := by
  refine ⟨?_, ?_, ?_, ?_⟩ <;> simp [markSuspicious, ban, unban, remove]

/-- C10: `Add(h, t₁); Add(h, t₂)` leaves exactly one rule for `h`, holding
target `t₂` with zeroed transient fields; each `Add` persists; an `Add` on
an existing host unconditionally replaces the stored rule with a fresh one;
other hosts are untouched. -/
theorem addRule_replaces (s : RuleStore) (h t₁ t₂ : String)
    (hu : keyCount h s.rules ≤ 1) :
    aLookup h (addRule (addRule s h t₁) h t₂).rules = some ⟨t₂, 0, false⟩ ∧
    keyCount h (addRule (addRule s h t₁) h t₂).rules = 1 ∧
    (addRule (addRule s h t₁) h t₂).saveCount = s.saveCount + 2 ∧
    (∀ (s₂ : RuleStore) (target : String),
        aLookup h (addRule s₂ h target).rules = some ⟨target, 0, false⟩ ∧
        (addRule s₂ h target).saveCount = s₂.saveCount + 1) ∧
    (∀ k, k ≠ h → aLookup k (addRule (addRule s h t₁) h t₂).rules = aLookup k s.rules) := by
  refine ⟨?_, ?_, ?_, ?_, ?_⟩
  · exact aLookup_aSet_self h _ _
  · show keyCount h (aSet h _ (aSet h _ s.rules)) = 1
    rw [keyCount_aSet, keyCount_aSet]
    omega
  · rfl
  · intro s₂ target
    exact ⟨aLookup_aSet_self h _ _, rfl⟩
  · intro k hk
    show aLookup k (aSet h _ (aSet h _ s.rules)) = aLookup k s.rules
    rw [aLookup_aSet_ne _ _ hk, aLookup_aSet_ne _ _ hk]

/-- Witness for C10 at a concrete store. -/
theorem addRule_replaces_witness :
    keyCount "a.test" (⟨[("a.test", ⟨"t0", 5, true⟩)], 0⟩ : RuleStore).rules ≤ 1 ∧
    aLookup "a.test"
      (addRule (addRule ⟨[("a.test", ⟨"t0", 5, true⟩)], 0⟩ "a.test" "t1") "a.test" "t2").rules
      = some ⟨"t2", 0, false⟩ :=
  ⟨by decide,
   (addRule_replaces ⟨[("a.test", ⟨"t0", 5, true⟩)], 0⟩ "a.test" "t1" "t2" (by decide)).1⟩

/-- C8: `Broadcaster.Write(p)` returns `(len(p), nil)` and never fails; each
subscriber receives the record independently of every other subscriber — the
listener list is updated pointwise — with a non-blocking send: a subscriber
with buffer room gets the record appended to its own queue, a subscriber
whose queue is full keeps its queue unchanged and loses the record for
itself only. -/
theorem write_spec (b : Broadcaster) (p : List Nat) :
    (write b p).1 = (p.length, none) ∧
    (∀ i : Nat, (write b p).2.listeners[i]? = (b.listeners[i]?).map (deliver p)) ∧
    (∀ s : Subscriber, s.queue.length < s.capacity →
        deliver p s = { s with queue := s.queue ++ [p] }) ∧
    (∀ s : Subscriber, ¬ s.queue.length < s.capacity → deliver p s = s) := by
  refine ⟨rfl, ?_, ?_, ?_⟩
  · intro i
    simp [write]
  · intro s hs
    simp [deliver, hs]
  · intro s hs
    simp [deliver, hs]

/-- Witness for C8: a full subscriber keeps its queue while one with room
gets the record. -/
theorem write_spec_witness :
    ((⟨1, [[0]]⟩ : Subscriber).queue.length < (⟨1, [[0]]⟩ : Subscriber).capacity → False) ∧
    deliver [7] ⟨1, [[0]]⟩ = ⟨1, [[0]]⟩ ∧
    ((⟨2, []⟩ : Subscriber).queue.length < (⟨2, []⟩ : Subscriber).capacity) ∧
    deliver [7] ⟨2, []⟩ = ⟨2, [[7]]⟩ :=
  ⟨by decide,
   (write_spec ⟨[]⟩ [7]).2.2.2 ⟨1, [[0]]⟩ (by decide),
   by decide,
   (write_spec ⟨[]⟩ [7]).2.2.1 ⟨2, []⟩ (by decide)⟩

/-- After any `Ban(ip)` with a non-empty `ip`, the store holds a banned
record for `ip`. -/
theorem ban_lookup_banned (s : IPRepStore) (ip : String) (now : Nat) (h : ip ≠ "") :
    ∃ e, aLookup ip (ban s ip now).2.entries = some e ∧ e.banned = true := by
  cases hl : aLookup ip s.entries with
  | none =>
      refine ⟨⟨ip, "manual ban", 1, now, now, true, now, 0, false, 0, 0⟩, ?_, rfl⟩
      simp [ban, h, hl, aLookup_aSet_self]
  | some e =>
      by_cases hb : e.banned
      · exact ⟨e, by simp [ban, h, hl, hb], hb⟩
      · refine ⟨⟨e.ip, e.reason, e.count, e.firstSeen, e.lastSeen, true, now, 0, false,
                 e.windowStart, e.windowCount⟩, ?_, rfl⟩
        simp [ban, h, hl, hb, aLookup_aSet_self]

/-- `Ban(ip)` on a store whose record for `ip` is already banned is a
rejected no-op. -/
theorem ban_of_banned (s : IPRepStore) (ip : String) (now : Nat) (h : ip ≠ "")
    (e : SuspiciousIP) (he : aLookup ip s.entries = some e) (hb : e.banned = true) :
    ban s ip now = (false, s) := by
  simp [ban, h, he, hb]

/-- `Ban(ip)` on a store whose record for `ip` is unbanned sets the ban
fields (permanent: `banUntil = 0`). -/
theorem ban_of_unbanned (s : IPRepStore) (ip : String) (now : Nat) (h : ip ≠ "")
    (e : SuspiciousIP) (he : aLookup ip s.entries = some e) (hb : e.banned = false) :
    ban s ip now =
      (true, ⟨aSet ip ⟨e.ip, e.reason, e.count, e.firstSeen, e.lastSeen, true, now, 0, false,
                       e.windowStart, e.windowCount⟩ s.entries,
              s.saveCount + 1⟩) := by
  simp [ban, h, he, hb]

/-- `Unban(ip)` on a store whose record for `ip` is banned clears the ban
fields and keeps the counters. -/
theorem unban_of_banned (s : IPRepStore) (ip : String) (h : ip ≠ "")
    (e : SuspiciousIP) (he : aLookup ip s.entries = some e) (hb : e.banned = true) :
    unban s ip =
      (true, ⟨aSet ip ⟨e.ip, e.reason, e.count, e.firstSeen, e.lastSeen, false, 0, 0, false,
                       e.windowStart, e.windowCount⟩ s.entries,
              s.saveCount + 1⟩) := by
  simp [unban, h, he, hb]

/-- C3: `IsBanned(ip)` on a banned record with a non-zero `banUntil` clears
the four ban fields (keeping `count`, `firstSeen`, `lastSeen` and the window
fields), persists, and returns `false` when the clock is strictly past
`banUntil`; at any time not after `banUntil` it returns `true` and changes
nothing. -/
theorem isBanned_lazy_expiry (s : IPRepStore) (ip : String) (now : Nat)
    (e : SuspiciousIP) (h₁ : aLookup ip s.entries = some e)
    (h₂ : e.banned = true) (h₃ : e.banUntil ≠ 0) :
    (now > e.banUntil →
      isBanned s ip now =
        (false,
         ⟨aSet ip ⟨e.ip, e.reason, e.count, e.firstSeen, e.lastSeen, false, 0, 0, false,
                   e.windowStart, e.windowCount⟩ s.entries,
          s.saveCount + 1⟩)) ∧
    (¬ now > e.banUntil → isBanned s ip now = (true, s)) := by
  constructor
  · intro hnow
    simp [isBanned, h₁, h₂, h₃, hnow]
  · intro hnow
    simp [isBanned, h₁, h₂, h₃, hnow]

/-- Witness for C3 at a concrete banned record and the two clock sides. -/
theorem isBanned_lazy_expiry_witness :
    aLookup "1.2.3.4"
      (⟨[("1.2.3.4", ⟨"1.2.3.4", "r", 4, 1, 2, true, 50, 100, true, 7, 3⟩)], 6⟩ :
        IPRepStore).entries = some ⟨"1.2.3.4", "r", 4, 1, 2, true, 50, 100, true, 7, 3⟩ ∧
    isBanned ⟨[("1.2.3.4", ⟨"1.2.3.4", "r", 4, 1, 2, true, 50, 100, true, 7, 3⟩)], 6⟩
        "1.2.3.4" 101 =
      (false, ⟨[("1.2.3.4", ⟨"1.2.3.4", "r", 4, 1, 2, false, 0, 0, false, 7, 3⟩)], 7⟩) ∧
    isBanned ⟨[("1.2.3.4", ⟨"1.2.3.4", "r", 4, 1, 2, true, 50, 100, true, 7, 3⟩)], 6⟩
        "1.2.3.4" 100 =
      (true, ⟨[("1.2.3.4", ⟨"1.2.3.4", "r", 4, 1, 2, true, 50, 100, true, 7, 3⟩)], 6⟩) := by
  refine ⟨by decide, ?_, ?_⟩
  · have hx := (isBanned_lazy_expiry
      ⟨[("1.2.3.4", ⟨"1.2.3.4", "r", 4, 1, 2, true, 50, 100, true, 7, 3⟩)], 6⟩
      "1.2.3.4" 101 ⟨"1.2.3.4", "r", 4, 1, 2, true, 50, 100, true, 7, 3⟩
      (by decide) (by decide) (by decide)).1 (by decide)
    rw [hx]
    decide
  · have hx := (isBanned_lazy_expiry
      ⟨[("1.2.3.4", ⟨"1.2.3.4", "r", 4, 1, 2, true, 50, 100, true, 7, 3⟩)], 6⟩
      "1.2.3.4" 100 ⟨"1.2.3.4", "r", 4, 1, 2, true, 50, 100, true, 7, 3⟩
      (by decide) (by decide) (by decide)).2 (by decide)
    rw [hx]

/-- C2: full characterization of `MarkSuspicious(ip, reason)` for a
non-empty `ip`.  On a missing record it creates one with `count=1`,
`windowStart=now`, `windowCount=1` and returns `(false, 0)`.  On an existing
record it increments `count`, sets `lastSeen`, updates `reason` only when
non-empty; it resets the window (`windowStart=now`, `windowCount=1`) when
`windowStart` is zero or `now - windowStart` exceeds `autoBanWindow` — in
which case no auto-ban can fire — and otherwise increments `windowCount`;
if the record is not already banned and the incremented window count has
reached `autoBanHits` it sets the four ban fields and returns
`(true, now + autoBanDuration)`, otherwise it returns `(false, 0)`.  Every
path persists. -/
theorem markSuspicious_spec (s : IPRepStore) (ip reason : String) (now : Nat)
    (h : ip ≠ "") :
    (aLookup ip s.entries = none →
      markSuspicious s ip reason now =
        ((false, 0),
         ⟨aSet ip ⟨ip, reason, 1, now, now, false, 0, 0, false, now, 1⟩ s.entries,
          s.saveCount + 1⟩)) ∧
    (∀ e, aLookup ip s.entries = some e →
      ((e.windowStart = 0 ∨ now - e.windowStart > autoBanWindow →
        markSuspicious s ip reason now =
          ((false, 0),
           ⟨aSet ip ⟨e.ip, if reason = "" then e.reason else reason, e.count + 1,
                     e.firstSeen, now, e.banned, e.bannedAt, e.banUntil, e.autoBanned,
                     now, 1⟩ s.entries,
            s.saveCount + 1⟩)) ∧
       (¬ (e.windowStart = 0 ∨ now - e.windowStart > autoBanWindow) →
        ((e.banned = false ∧ autoBanHits ≤ e.windowCount + 1 →
          markSuspicious s ip reason now =
            ((true, now + autoBanDuration),
             ⟨aSet ip ⟨e.ip, if reason = "" then e.reason else reason, e.count + 1,
                       e.firstSeen, now, true, now, now + autoBanDuration, true,
                       e.windowStart, e.windowCount + 1⟩ s.entries,
              s.saveCount + 1⟩)) ∧
         (¬ (e.banned = false ∧ autoBanHits ≤ e.windowCount + 1) →
          markSuspicious s ip reason now =
            ((false, 0),
             ⟨aSet ip ⟨e.ip, if reason = "" then e.reason else reason, e.count + 1,
                       e.firstSeen, now, e.banned, e.bannedAt, e.banUntil, e.autoBanned,
                       e.windowStart, e.windowCount + 1⟩ s.entries,
              s.saveCount + 1⟩)))))) := by
  constructor
  · intro hnone
    simp [markSuspicious, h, hnone]
  · intro e he
    constructor
    · intro hw
      by_cases hr : reason = "" <;>
        simp [markSuspicious, h, he, hw, hr, autoBanHits]
    · intro hw
      constructor
      · rintro ⟨hb1, hb2⟩
        by_cases hr : reason = "" <;>
          simp [markSuspicious, h, he, hw, hr, hb1, hb2]
      · intro hb
        by_cases hbb : e.banned = false
        · have hlt : ¬ autoBanHits ≤ e.windowCount + 1 := fun hc => hb ⟨hbb, hc⟩
          by_cases hr : reason = "" <;>
            simp [markSuspicious, h, he, hw, hr, hbb, hlt]
        · by_cases hr : reason = "" <;>
            simp [markSuspicious, h, he, hw, hr, hbb]

/-- Witness for C2: the tenth in-window mark auto-bans. -/
theorem markSuspicious_spec_witness :
    ("1.2.3.4" : String) ≠ "" ∧
    (markSuspicious
      ⟨[("1.2.3.4", ⟨"1.2.3.4", "old", 9, 1, 2, false, 0, 0, false, 5, 9⟩)], 3⟩
      "1.2.3.4" "probe" 10).1 = (true, 86400000000010) := by
  refine ⟨by decide, ?_⟩
  have hm := (((markSuspicious_spec
      ⟨[("1.2.3.4", ⟨"1.2.3.4", "old", 9, 1, 2, false, 0, 0, false, 5, 9⟩)], 3⟩
      "1.2.3.4" "probe" 10 (by decide)).2
      ⟨"1.2.3.4", "old", 9, 1, 2, false, 0, 0, false, 5, 9⟩ (by decide)).2
      (by decide)).1 ⟨by decide, by decide⟩
  rw [hm]
  decide

/-- C6: `Ban` creates a `"manual ban"` record with `count=1` on a missing
IP; on an existing unbanned record it sets `banned`, clears `autoBanned` and
`banUntil` (permanent) and stamps `bannedAt`; a second consecutive `Ban`
returns `false` and leaves the store untouched; and `Ban; Unban; Ban` ends
with `banned=true`, `autoBanned=false`, `banUntil=0`. -/
theorem ban_unban_ban_algebra (s : IPRepStore) (ip : String) (now now₂ now₃ : Nat)
    (h : ip ≠ "") :
    (aLookup ip s.entries = none →
      ban s ip now =
        (true, ⟨aSet ip ⟨ip, "manual ban", 1, now, now, true, now, 0, false, 0, 0⟩ s.entries,
                s.saveCount + 1⟩)) ∧
    (∀ e, aLookup ip s.entries = some e → e.banned = false →
      ban s ip now =
        (true, ⟨aSet ip ⟨e.ip, e.reason, e.count, e.firstSeen, e.lastSeen, true, now, 0, false,
                         e.windowStart, e.windowCount⟩ s.entries,
                s.saveCount + 1⟩)) ∧
    ban (ban s ip now).2 ip now₂ = (false, (ban s ip now).2) ∧
    (∃ e₃, aLookup ip (ban (unban (ban s ip now).2 ip).2 ip now₃).2.entries = some e₃ ∧
        e₃.banned = true ∧ e₃.autoBanned = false ∧ e₃.banUntil = 0) := by
  obtain ⟨e₁, he₁, hb₁⟩ := ban_lookup_banned s ip now h
  refine ⟨?_, ?_, ?_, ?_⟩
  · intro hnone
    simp [ban, h, hnone]
  · intro e he hb
    exact ban_of_unbanned s ip now h e he hb
  · exact ban_of_banned (ban s ip now).2 ip now₂ h e₁ he₁ hb₁
  · have h₃ := unban_of_banned (ban s ip now).2 ip h e₁ he₁ hb₁
    have he₂ : aLookup ip (unban (ban s ip now).2 ip).2.entries =
        some ⟨e₁.ip, e₁.reason, e₁.count, e₁.firstSeen, e₁.lastSeen, false, 0, 0, false,
              e₁.windowStart, e₁.windowCount⟩ := by
      rw [h₃]
      exact aLookup_aSet_self ip _ _
    have h₄ := ban_of_unbanned (unban (ban s ip now).2 ip).2 ip now₃ h _ he₂ rfl
    refine ⟨⟨e₁.ip, e₁.reason, e₁.count, e₁.firstSeen, e₁.lastSeen, true, now₃, 0, false,
             e₁.windowStart, e₁.windowCount⟩, ?_, rfl, rfl, rfl⟩
    rw [h₄]
    exact aLookup_aSet_self ip _ _

/-- Witness for C6 on a fresh store. -/
theorem ban_unban_ban_algebra_witness :
    ("9.8.7.6" : String) ≠ "" ∧
    ban (⟨[], 0⟩ : IPRepStore) "9.8.7.6" 11 =
      (true, ⟨[("9.8.7.6", ⟨"9.8.7.6", "manual ban", 1, 11, 11, true, 11, 0, false, 0, 0⟩)], 1⟩) ∧
    ban (ban (⟨[], 0⟩ : IPRepStore) "9.8.7.6" 11).2 "9.8.7.6" 12 =
      (false, (ban (⟨[], 0⟩ : IPRepStore) "9.8.7.6" 11).2) := by
  refine ⟨by decide, ?_, ?_⟩
  · have hx := (ban_unban_ban_algebra ⟨[], 0⟩ "9.8.7.6" 11 12 13 (by decide)).1 (by decide)
    rw [hx]
    decide
  · exact (ban_unban_ban_algebra ⟨[], 0⟩ "9.8.7.6" 11 12 13 (by decide)).2.2.1

theorem aLookup_of_keyCount_zero {α : Type} {k : String} {l : List (String × α)}
    (h : keyCount k l = 0) : aLookup k l = none := by
  induction l with
  | nil => rfl
  | cons q rest ih =>
      obtain ⟨k₂, w⟩ := q
      by_cases hk : k = k₂
      · subst hk
        simp [keyCount, List.countP_cons] at h
      · have h₂ : keyCount k rest = 0 := by
          have hk₂ : ¬ k₂ = k := fun hx => hk hx.symm
          simpa [keyCount, List.countP_cons, hk₂] using h
        simp [aLookup, hk, ih h₂]

theorem aLookup_aErase_self {α : Type} {k : String} {l : List (String × α)}
    (hu : keyCount k l ≤ 1) : aLookup k (aErase k l) = none := by
  induction l with
  | nil => rfl
  | cons q rest ih =>
      obtain ⟨k₂, w⟩ := q
      by_cases hk : k = k₂
      · subst hk
        have h₂ : keyCount k rest = 0 := by
          simp [keyCount, List.countP_cons] at hu ⊢
          exact hu
        simpa [aErase] using aLookup_of_keyCount_zero h₂
      · have hk₂ : ¬ k₂ = k := fun hx => hk hx.symm
        have h₂ : keyCount k rest ≤ 1 := by
          simpa [keyCount, List.countP_cons, hk₂] using hu
        simp [aErase, aLookup, hk, ih h₂]

/-- C4 counterexample: the store-level `Remove(ip)` is *not* refused on a
banned record — it deletes the record and returns `true` with no prior
`Unban`. -/
theorem remove_banned_not_refused :
    (remove ⟨[("9.8.7.6", ⟨"9.8.7.6", "manual ban", 1, 5, 5, true, 5, 0, false, 0, 0⟩)], 0⟩
        "9.8.7.6").1 = true ∧
    (remove ⟨[("9.8.7.6", ⟨"9.8.7.6", "manual ban", 1, 5, 5, true, 5, 0, false, 0, 0⟩)], 0⟩
        "9.8.7.6").2.entries = [] := by
  decide

/-- C4 (amended): the refusal lives only in the operator endpoint.  When the
record for `ip` is banned and the ban is still effective (permanent
`banUntil = 0`, or `now` not after `banUntil`), `RemoveSuspiciousIP`
responds `400` and leaves the reputation state unchanged; the store-level
`Remove(ip)` by contrast deletes the record and reports `true` even while
banned. -/
theorem removeSuspicious_endpoint_refusal (s : IPRepStore) (ip : String) (now : Nat)
    (e : SuspiciousIP) (hip : ip ≠ "") (h₁ : aLookup ip s.entries = some e)
    (h₂ : e.banned = true) (h₃ : e.banUntil = 0 ∨ ¬ now > e.banUntil)
    (hu : keyCount ip s.entries ≤ 1) :
    removeSuspiciousIPHandler (some s) ip now = (400, some s) ∧
    remove s ip = (true, ⟨aErase ip s.entries, s.saveCount + 1⟩) ∧
    aLookup ip (remove s ip).2.entries = none := by
  have hib : isBanned s ip now = (true, s) := by
    rcases h₃ with h₃ | h₃ <;> simp [isBanned, h₁, h₂, h₃]
  have hrm : remove s ip = (true, ⟨aErase ip s.entries, s.saveCount + 1⟩) := by
    simp [remove, hip, h₁]
  refine ⟨?_, hrm, ?_⟩
  · simp [removeSuspiciousIPHandler, hip, hib]
  · rw [hrm]
    exact aLookup_aErase_self hu

/-- Witness for the amended C4: a permanently banned record is refused by
the endpoint but deleted by the raw store operation. -/
theorem removeSuspicious_endpoint_refusal_witness :
    removeSuspiciousIPHandler
      (some ⟨[("9.8.7.6", ⟨"9.8.7.6", "manual ban", 1, 5, 5, true, 5, 0, false, 0, 0⟩)], 0⟩)
      "9.8.7.6" 100 =
      (400, some ⟨[("9.8.7.6", ⟨"9.8.7.6", "manual ban", 1, 5, 5, true, 5, 0, false, 0, 0⟩)], 0⟩) ∧
    aLookup "9.8.7.6"
      (remove ⟨[("9.8.7.6", ⟨"9.8.7.6", "manual ban", 1, 5, 5, true, 5, 0, false, 0, 0⟩)], 0⟩
        "9.8.7.6").2.entries = none := by
  have hx := removeSuspicious_endpoint_refusal
    ⟨[("9.8.7.6", ⟨"9.8.7.6", "manual ban", 1, 5, 5, true, 5, 0, false, 0, 0⟩)], 0⟩
    "9.8.7.6" 100 ⟨"9.8.7.6", "manual ban", 1, 5, 5, true, 5, 0, false, 0, 0⟩
    (by decide) (by decide) (by decide) (Or.inl (by decide)) (by decide)
  exact ⟨hx.1, hx.2.2⟩

theorem countMono_refl (l : List (String × SuspiciousIP)) : countMono l l := by
  intro k e e₂ hk hk₂
  rw [hk] at hk₂
  injection hk₂ with h
  rw [h]

theorem countMono_aSet {l : List (String × SuspiciousIP)} {ip : String}
    {e₀ : SuspiciousIP} (v : SuspiciousIP) (hl : aLookup ip l = some e₀)
    (hc : e₀.count ≤ v.count) : countMono l (aSet ip v l) := by
  intro k e e₂ hk hk₂
  by_cases hkip : k = ip
  · subst hkip
    rw [hk] at hl
    injection hl with h₀
    rw [aLookup_aSet_self] at hk₂
    injection hk₂ with h₂
    subst h₀
    subst h₂
    exact hc
  · rw [aLookup_aSet_ne v l hkip] at hk₂
    rw [hk] at hk₂
    injection hk₂ with h₂
    rw [h₂]

theorem countMono_aSet_new {l : List (String × SuspiciousIP)} {ip : String}
    (v : SuspiciousIP) (hl : aLookup ip l = none) : countMono l (aSet ip v l) := by
  intro k e e₂ hk hk₂
  by_cases hkip : k = ip
  · subst hkip
    rw [hk] at hl
    cases hl
  · rw [aLookup_aSet_ne v l hkip] at hk₂
    rw [hk] at hk₂
    injection hk₂ with h₂
    rw [h₂]

theorem inv_of_aSet {l : List (String × SuspiciousIP)} {k : String}
    {v : SuspiciousIP} (hl : ∀ p ∈ l, entryInv p.2) (hv : entryInv v) :
    ∀ p ∈ aSet k v l, entryInv p.2 := by
  intro p hp
  rcases mem_aSet hp with h₂ | h₂
  · rw [h₂]
    exact hv
  · exact hl p h₂

theorem markSuspicious_inv (s : IPRepStore) (ip reason : String) (now : Nat)
    (hinv : storeInv s) : storeInv (markSuspicious s ip reason now).2 := by
  by_cases h : ip = ""
  · simpa [markSuspicious, h] using hinv
  cases hl : aLookup ip s.entries with
  | none =>
      intro p hp
      simp [markSuspicious, h, hl] at hp
      rcases mem_aSet hp with h₂ | h₂
      · rw [h₂]
        exact ⟨fun _ => ⟨rfl, rfl, rfl⟩, Nat.le_refl 1⟩
      · exact hinv p h₂
  | some e =>
      have hei : entryInv e := hinv (ip, e) (aLookup_mem hl)
      intro p hp
      by_cases hw : e.windowStart = 0 ∨ now - e.windowStart > autoBanWindow
      · simp [markSuspicious, h, hl, hw, autoBanHits] at hp
        rcases mem_aSet hp with h₂ | h₂
        · rw [h₂]
          refine ⟨fun hb => hei.1 hb, ?_⟩
          show (1 : Nat) ≤ e.count + 1
          omega
        · exact hinv p h₂
      · by_cases hb : e.banned = false ∧ autoBanHits ≤ e.windowCount + 1
        · simp [markSuspicious, h, hl, hw, hb.1, hb.2] at hp
          rcases mem_aSet hp with h₂ | h₂
          · rw [h₂]
            refine ⟨fun hbf => by simp at hbf, ?_⟩
            show e.windowCount + 1 ≤ e.count + 1
            have := hei.2
            omega
          · exact hinv p h₂
        · simp [markSuspicious, h, hl, hw, hb] at hp
          rcases mem_aSet hp with h₂ | h₂
          · rw [h₂]
            refine ⟨fun hbf => hei.1 hbf, ?_⟩
            show e.windowCount + 1 ≤ e.count + 1
            have := hei.2
            omega
          · exact hinv p h₂

theorem ban_inv (s : IPRepStore) (ip : String) (now : Nat)
    (hinv : storeInv s) : storeInv (ban s ip now).2 := by
  by_cases h : ip = ""
  · simpa [ban, h] using hinv
  cases hl : aLookup ip s.entries with
  | none =>
      intro p hp
      simp [ban, h, hl] at hp
      rcases mem_aSet hp with h₂ | h₂
      · rw [h₂]
        exact ⟨fun hbf => by simp at hbf, Nat.zero_le 1⟩
      · exact hinv p h₂
  | some e =>
      have hei : entryInv e := hinv (ip, e) (aLookup_mem hl)
      by_cases hb : e.banned
      · simpa [ban, h, hl, hb] using hinv
      · intro p hp
        simp [ban, h, hl, hb] at hp
        rcases mem_aSet hp with h₂ | h₂
        · rw [h₂]
          exact ⟨fun hbf => by simp at hbf, hei.2⟩
        · exact hinv p h₂

theorem unban_inv (s : IPRepStore) (ip : String)
    (hinv : storeInv s) : storeInv (unban s ip).2 := by
  by_cases h : ip = ""
  · simpa [unban, h] using hinv
  cases hl : aLookup ip s.entries with
  | none => simpa [unban, h, hl] using hinv
  | some e =>
      have hei : entryInv e := hinv (ip, e) (aLookup_mem hl)
      by_cases hb : e.banned = false
      · simpa [unban, h, hl, hb] using hinv
      · intro p hp
        simp [unban, h, hl, hb] at hp
        rcases mem_aSet hp with h₂ | h₂
        · rw [h₂]
          exact ⟨fun _ => ⟨rfl, rfl, rfl⟩, hei.2⟩
        · exact hinv p h₂

theorem isBanned_inv (s : IPRepStore) (ip : String) (now : Nat)
    (hinv : storeInv s) : storeInv (isBanned s ip now).2 := by
  cases hl : aLookup ip s.entries with
  | none => simpa [isBanned, hl] using hinv
  | some e =>
      have hei : entryInv e := hinv (ip, e) (aLookup_mem hl)
      by_cases hc : e.banned = true ∧ e.banUntil ≠ 0 ∧ now > e.banUntil
      · intro p hp
        simp [isBanned, hl, hc.1, hc.2.1, hc.2.2] at hp
        rcases mem_aSet hp with h₂ | h₂
        · rw [h₂]
          exact ⟨fun _ => ⟨rfl, rfl, rfl⟩, hei.2⟩
        · exact hinv p h₂
      · simpa [isBanned, hl, hc] using hinv

theorem remove_inv (s : IPRepStore) (ip : String)
    (hinv : storeInv s) : storeInv (remove s ip).2 := by
  by_cases h : ip = ""
  · simpa [remove, h] using hinv
  cases hl : aLookup ip s.entries with
  | none => simpa [remove, h, hl] using hinv
  | some e =>
      intro p hp
      simp [remove, h, hl] at hp
      exact hinv p (mem_aErase hp)

theorem markSuspicious_mono (s : IPRepStore) (ip reason : String) (now : Nat) :
    countMono s.entries (markSuspicious s ip reason now).2.entries := by
  by_cases h : ip = ""
  · simp [markSuspicious, h]
    exact countMono_refl s.entries
  cases hl : aLookup ip s.entries with
  | none =>
      simp [markSuspicious, h, hl]
      exact countMono_aSet_new _ hl
  | some e =>
      by_cases hw : e.windowStart = 0 ∨ now - e.windowStart > autoBanWindow
      · simp [markSuspicious, h, hl, hw, autoBanHits]
        exact countMono_aSet _ hl (Nat.le_succ e.count)
      · by_cases hb : e.banned = false ∧ autoBanHits ≤ e.windowCount + 1
        · simp [markSuspicious, h, hl, hw, hb.1, hb.2]
          exact countMono_aSet _ hl (Nat.le_succ e.count)
        · simp [markSuspicious, h, hl, hw, hb]
          exact countMono_aSet _ hl (Nat.le_succ e.count)

theorem ban_mono (s : IPRepStore) (ip : String) (now : Nat) :
    countMono s.entries (ban s ip now).2.entries := by
  by_cases h : ip = ""
  · simp [ban, h]
    exact countMono_refl s.entries
  cases hl : aLookup ip s.entries with
  | none =>
      simp [ban, h, hl]
      exact countMono_aSet_new _ hl
  | some e =>
      by_cases hb : e.banned
      · simp [ban, h, hl, hb]
        exact countMono_refl s.entries
      · simp [ban, h, hl, hb]
        exact countMono_aSet _ hl (Nat.le_refl e.count)

theorem unban_mono (s : IPRepStore) (ip : String) :
    countMono s.entries (unban s ip).2.entries := by
  by_cases h : ip = ""
  · simp [unban, h]
    exact countMono_refl s.entries
  cases hl : aLookup ip s.entries with
  | none =>
      simp [unban, h, hl]
      exact countMono_refl s.entries
  | some e =>
      by_cases hb : e.banned = false
      · simp [unban, h, hl, hb]
        exact countMono_refl s.entries
      · simp [unban, h, hl, hb]
        exact countMono_aSet _ hl (Nat.le_refl e.count)

theorem isBanned_mono (s : IPRepStore) (ip : String) (now : Nat) :
    countMono s.entries (isBanned s ip now).2.entries := by
  cases hl : aLookup ip s.entries with
  | none =>
      simp [isBanned, hl]
      exact countMono_refl s.entries
  | some e =>
      by_cases hc : e.banned = true ∧ e.banUntil ≠ 0 ∧ now > e.banUntil
      · simp [isBanned, hl, hc.1, hc.2.1, hc.2.2]
        exact countMono_aSet _ hl (Nat.le_refl e.count)
      · simp [isBanned, hl, hc]
        exact countMono_refl s.entries

/-- C7: every reputation-store operation preserves the record invariants —
unbanned records carry zero ban metadata and `windowCount ≤ count` — and
`count` never decreases for a surviving record under any operation other
than `Remove`. -/
theorem reputation_invariants (s : IPRepStore) (ip reason : String) (now : Nat)
    (hinv : storeInv s) :
    storeInv (markSuspicious s ip reason now).2 ∧
    storeInv (ban s ip now).2 ∧
    storeInv (unban s ip).2 ∧
    storeInv (isBanned s ip now).2 ∧
    storeInv (remove s ip).2 ∧
    countMono s.entries (markSuspicious s ip reason now).2.entries ∧
    countMono s.entries (ban s ip now).2.entries ∧
    countMono s.entries (unban s ip).2.entries ∧
    countMono s.entries (isBanned s ip now).2.entries :=
  ⟨markSuspicious_inv s ip reason now hinv,
   ban_inv s ip now hinv,
   unban_inv s ip hinv,
   isBanned_inv s ip now hinv,
   remove_inv s ip hinv,
   markSuspicious_mono s ip reason now,
   ban_mono s ip now,
   unban_mono s ip,
   isBanned_mono s ip now⟩

/-- Witness for C7 at a concrete store satisfying the invariant. -/
theorem reputation_invariants_witness :
    storeInv ⟨[("1.2.3.4", ⟨"1.2.3.4", "r", 4, 1, 2, false, 0, 0, false, 7, 3⟩)], 0⟩ ∧
    storeInv (markSuspicious
      ⟨[("1.2.3.4", ⟨"1.2.3.4", "r", 4, 1, 2, false, 0, 0, false, 7, 3⟩)], 0⟩
      "1.2.3.4" "probe" 9).2 :=
  ⟨by decide,
   (reputation_invariants
      ⟨[("1.2.3.4", ⟨"1.2.3.4", "r", 4, 1, 2, false, 0, 0, false, 7, 3⟩)], 0⟩
      "1.2.3.4" "probe" 9 (by decide)).1⟩

/-- C5: the derived client IP follows the ordered policy of §4.4 — the
trimmed `CF-Connecting-IP` when accepted (parseable, and public or
socket-non-public); else the first public `X-Forwarded-For` entry; else the
trimmed `X-Real-IP` under the same acceptance rule; else the socket peer
when public; else the first parseable `X-Forwarded-For` entry, then a
parseable `X-Real-IP`, then the socket peer as-is. -/
theorem clientIPResolve_policy (h : HeaderSet) :
    (cfAccepted h = true → clientIPResolve h = trimStr h.cfConnectingIP) ∧
    (cfAccepted h = false →
      ∀ t, firstPublicXFF h.xForwardedFor = some t → clientIPResolve h = t) ∧
    (cfAccepted h = false → firstPublicXFF h.xForwardedFor = none →
      xrAccepted h = true → clientIPResolve h = trimStr h.xRealIP) ∧
    (cfAccepted h = false → firstPublicXFF h.xForwardedFor = none →
      xrAccepted h = false → socketIsPublic h = true →
      clientIPResolve h = socketHost h) ∧
    (cfAccepted h = false → firstPublicXFF h.xForwardedFor = none →
      xrAccepted h = false → socketIsPublic h = false →
      ((∀ t, firstParseXFF h.xForwardedFor = some t → clientIPResolve h = t) ∧
       (firstParseXFF h.xForwardedFor = none →
         (parseIPv4 (trimStr h.xRealIP)).isSome = true →
         clientIPResolve h = trimStr h.xRealIP) ∧
       (firstParseXFF h.xForwardedFor = none →
         (parseIPv4 (trimStr h.xRealIP)).isSome = false →
         clientIPResolve h = socketHost h))) := by
  refine ⟨?_, ?_, ?_, ?_, ?_⟩
  · intro hcf
    simp [clientIPResolve, hcf]
  · intro hcf t hx
    simp [clientIPResolve, hcf, hx]
  · intro hcf hx hxr
    simp [clientIPResolve, hcf, hx, hxr]
  · intro hcf hx hxr hsock
    simp [clientIPResolve, hcf, hx, hxr, hsock]
  · intro hcf hx hxr hsock
    refine ⟨?_, ?_, ?_⟩
    · intro t hp
      simp [clientIPResolve, hcf, hx, hxr, hsock, hp]
    · intro hp hxri
      simp [clientIPResolve, hcf, hx, hxr, hsock, hp, hxri]
    · intro hp hxri
      simp [clientIPResolve, hcf, hx, hxr, hsock, hp, hxri]

/-- Witness for C5: the claim's boundary case — `X-Forwarded-For` listing
only loopback addresses and a public socket peer resolves to the socket
peer. -/
theorem clientIPResolve_policy_witness :
    cfAccepted ⟨"", "127.0.0.1, 127.0.0.1", "127.0.0.1", "185.177.72.13:23088"⟩ = false ∧
    firstPublicXFF "127.0.0.1, 127.0.0.1" = none ∧
    xrAccepted ⟨"", "127.0.0.1, 127.0.0.1", "127.0.0.1", "185.177.72.13:23088"⟩ = false ∧
    socketIsPublic ⟨"", "127.0.0.1, 127.0.0.1", "127.0.0.1", "185.177.72.13:23088"⟩ = true ∧
    clientIPResolve ⟨"", "127.0.0.1, 127.0.0.1", "127.0.0.1", "185.177.72.13:23088"⟩ =
      "185.177.72.13" := by
  refine ⟨by decide, by decide, by decide, by decide, ?_⟩
  have hx := (clientIPResolve_policy
      ⟨"", "127.0.0.1, 127.0.0.1", "127.0.0.1", "185.177.72.13:23088"⟩).2.2.2.1
      (by decide) (by decide) (by decide) (by decide)
  rw [hx]
  decide

/-- C1: the dispatcher's gate chain is strictly ordered.  A banned client
receives `403` regardless of maintenance, host rules or path; with the ban
gate passed, global maintenance answers `503` even for unknown hosts; a
`MarkSuspicious` with reason `"suspicious path probe"` is traced only when
no earlier gate fired and a host rule matched; an unknown host (with ban and
maintenance gates passed) yields `404` plus an `"unknown host"` mark; and
with every gate passed the request is forwarded to the rule's target. -/
theorem serveHTTP_gate_order (rs : PRuleStore) (st : IPRepStore) (req : Request)
    (now : Nat) (parseOk : String → Bool) :
    ((isBanned st (clientIP req.remoteAddr) now).1 = true →
      serveHTTP rs (some st) req now parseOk =
        (Response.forbidden, some (isBanned st (clientIP req.remoteAddr) now).2, [])) ∧
    ((isBanned st (clientIP req.remoteAddr) now).1 = false → rs.maintenanceMode = true →
      req.path ≠ "/static/styles.css" →
      (serveHTTP rs (some st) req now parseOk).1 = Response.maintenancePage) ∧
    (∀ pr ∈ (serveHTTP rs (some st) req now parseOk).2.2,
      pr.2 = "suspicious path probe" →
      (isBanned st (clientIP req.remoteAddr) now).1 = false ∧
      rs.maintenanceMode = false ∧
      (getRule rs req.host).isSome = true ∧
      suspiciousPath req.path = true) ∧
    ((isBanned st (clientIP req.remoteAddr) now).1 = false → rs.maintenanceMode = false →
      getRule rs req.host = none →
      serveHTTP rs (some st) req now parseOk =
        (Response.notFound,
         some (markSuspicious (isBanned st (clientIP req.remoteAddr) now).2
                 (clientIP req.remoteAddr) "unknown host" now).2,
         [(clientIP req.remoteAddr, "unknown host")])) ∧
    (∀ rule, (isBanned st (clientIP req.remoteAddr) now).1 = false →
      rs.maintenanceMode = false → getRule rs req.host = some rule →
      rule.maintenance = false → parseOk ("http://" ++ rule.target) = true →
      (serveHTTP rs (some st) req now parseOk).1 = Response.forwarded rule.target) := by
  refine ⟨?_, ?_, ?_, ?_, ?_⟩
  · intro hb
    simp [serveHTTP, hb]
  · intro hb hm hpath
    simp [serveHTTP, hb, hm, hpath]
  · intro pr hpr hreason
    by_cases hb : (isBanned st (clientIP req.remoteAddr) now).1 = true
    · simp [serveHTTP, hb] at hpr
    · rw [Bool.not_eq_true] at hb
      by_cases hm : rs.maintenanceMode = true
      · simp [serveHTTP, hb, hm] at hpr
      · rw [Bool.not_eq_true] at hm
        cases hr : getRule rs req.host with
        | none =>
            simp [serveHTTP, hb, hm, hr] at hpr
            rw [hpr] at hreason
            simp at hreason
        | some rule =>
            by_cases hsp : suspiciousPath req.path = true
            · exact ⟨hb, hm, by simp [hr], hsp⟩
            · rw [Bool.not_eq_true] at hsp
              by_cases hrm : rule.maintenance = true
              · simp [serveHTTP, hb, hm, hr, hsp, hrm] at hpr
              · rw [Bool.not_eq_true] at hrm
                by_cases hpo : parseOk ("http://" ++ rule.target) = true
                · simp [serveHTTP, hb, hm, hr, hsp, hrm, hpo] at hpr
                · rw [Bool.not_eq_true] at hpo
                  simp [serveHTTP, hb, hm, hr, hsp, hrm, hpo] at hpr
  · intro hb hm hr
    simp [serveHTTP, hb, hm, hr]
  · intro rule hb hm hr hrm hpo
    by_cases hsp : suspiciousPath req.path = true
    · simp [serveHTTP, hb, hm, hr, hrm, hpo, hsp]
    · rw [Bool.not_eq_true] at hsp
      simp [serveHTTP, hb, hm, hr, hrm, hpo, hsp]

/-- Witness for C1: a banned client receives `403` while global maintenance
is on and no rule exists for the host. -/
theorem serveHTTP_gate_order_witness :
    (isBanned ⟨[("7.7.7.7", ⟨"7.7.7.7", "manual ban", 1, 1, 1, true, 1, 0, false, 0, 0⟩)], 0⟩
        "7.7.7.7" 5).1 = true ∧
    serveHTTP ⟨true, []⟩
        (some ⟨[("7.7.7.7", ⟨"7.7.7.7", "manual ban", 1, 1, 1, true, 1, 0, false, 0, 0⟩)], 0⟩)
        ⟨"evil.test", "/", "GET", "7.7.7.7:9999"⟩ 5 (fun _ => true) =
      (Response.forbidden,
       some ⟨[("7.7.7.7", ⟨"7.7.7.7", "manual ban", 1, 1, 1, true, 1, 0, false, 0, 0⟩)], 0⟩,
       []) := by
  refine ⟨by decide, ?_⟩
  have hx := (serveHTTP_gate_order ⟨true, []⟩
      ⟨[("7.7.7.7", ⟨"7.7.7.7", "manual ban", 1, 1, 1, true, 1, 0, false, 0, 0⟩)], 0⟩
      ⟨"evil.test", "/", "GET", "7.7.7.7:9999"⟩ 5 (fun _ => true)).1 (by decide)
  rw [hx]
  decide

end Router
